import Mathlib

/-!
Shallow embedding of the outbound message admission and pacing engine
("anti-detection system") of the WhatsApp web API server.

Source: `src/unnamed/part_003`, lines 199-381 (configuration, `getHumanDelay`,
`shouldWait`, `addToHistory`, `detectSuspiciousPattern`, `processMessageQueue`,
`queueMessage`) and lines 1678-1693 (periodic history cleanup).

Modelling conventions:
* Clock values and durations are integers (milliseconds), as produced by
  `Date.now()` and the configuration; the `Math.random()` draw consumed by
  `getHumanDelay` is a rational `r` with `0 ≤ r < 1`, passed explicitly, and
  the fractional intermediate value of `getHumanDelay` lives in `ℚ` before
  being rounded back to an integer number of milliseconds.
* `Math.round(x)` is modelled by `jsRound x = ⌊x + 1/2⌋`, which is what the
  JavaScript operation computes.
* The mutable module-level variables (`lastMessageTime`,
  `messageCountInWindow`, `cooldownUntil`, `messageHistory`) become explicit
  state records threaded through the functions.
* `setTimeout` decay callbacks scheduled by the worker become a list of
  pending fire times; awaiting for a duration fires every pending decay whose
  time has come (`advance`).
* A queued unit's `sendFunction` is abstracted by whether it succeeds
  (`sendOk`) and how long the awaited call takes (`sendDuration`).
-/

namespace WhatsApp

/-- `Math.round` in JavaScript: round half toward positive infinity. -/
def jsRound (q : ℚ) : ℤ := ⌊q + 1/2⌋

/-- The `ANTI_DETECTION_CONFIG` record (source lines 200-211). -/
structure AntiConfig where
  minDelay : ℤ
  maxDelay : ℤ
  cooldownPeriod : ℤ
  maxMessagesBeforeCooldown : ℤ
  mediaDelayMultiplier : ℚ
  deriving Repr, DecidableEq

/-- Environment variables feeding `ANTI_DETECTION_CONFIG`; `none` models a
variable that is missing or fails to parse (`parseInt`/`parseFloat` → `NaN`). -/
structure AntiEnv where
  minMessageDelay : Option ℤ
  maxMessageDelay : Option ℤ
  cooldownPeriod : Option ℤ
  maxMessagesBeforeCooldown : Option ℤ
  mediaDelayMultiplier : Option ℚ
  deriving Repr, DecidableEq

/-- `parseInt(v) || d`: a missing/unparsable value (`NaN`) and the falsy
parse result `0` both fall back to the default; anything else, including
negative numbers, is used verbatim. -/
def orDefaultInt (v : Option ℤ) (d : ℤ) : ℤ :=
  match v with
  | none => d
  | some n => if n = 0 then d else n

/-- `parseFloat(v) || d`, same falsy-fallback semantics as `orDefaultInt`. -/
def orDefaultRat (v : Option ℚ) (d : ℚ) : ℚ :=
  match v with
  | none => d
  | some q => if q = 0 then d else q

/-- Construction of `ANTI_DETECTION_CONFIG` at startup (source lines 200-211):
every field is `parse…(env) || default`; no validation of any kind is
performed and no error can be raised. -/
def loadAntiDetectionConfig (env : AntiEnv) : AntiConfig where
  minDelay := orDefaultInt env.minMessageDelay 2000
  maxDelay := orDefaultInt env.maxMessageDelay 5000
  cooldownPeriod := orDefaultInt env.cooldownPeriod 30000
  maxMessagesBeforeCooldown := orDefaultInt env.maxMessagesBeforeCooldown 5
  mediaDelayMultiplier := orDefaultRat env.mediaDelayMultiplier (3/2)

/-- `getHumanDelay(hasMedia)` (source lines 225-236): uniform draw
`minDelay + r * (maxDelay - minDelay)` with `r = Math.random()`, multiplied by
`mediaDelayMultiplier` when `hasMedia`, rounded to the nearest 100 ms. -/
def getHumanDelay (cfg : AntiConfig) (r : ℚ) (hasMedia : Bool) : ℤ :=
  let baseDelay : ℚ := (cfg.minDelay : ℚ) + r * ((cfg.maxDelay : ℚ) - (cfg.minDelay : ℚ))
  let delay := if hasMedia then baseDelay * cfg.mediaDelayMultiplier else baseDelay
  jsRound (delay / 100) * 100

/-- The module-level rate-tracking variables `lastMessageTime`,
`messageCountInWindow`, `cooldownUntil` (source lines 216-218). -/
structure RateState where
  lastMessageTime : ℤ
  messageCountInWindow : ℤ
  cooldownUntil : ℤ
  deriving Repr, DecidableEq

/-- `shouldWait()` (source lines 239-263), with the `Date.now()` read and the
random draw used by the inner `getHumanDelay()` call made explicit.  Returns
the required wait together with the updated rate state (the second branch
mutates `cooldownUntil` and `messageCountInWindow`). -/
def shouldWait (cfg : AntiConfig) (st : RateState) (now : ℤ) (r : ℚ) :
    ℤ × RateState :=
  if now < st.cooldownUntil then
    (st.cooldownUntil - now, st)
  else if cfg.maxMessagesBeforeCooldown ≤ st.messageCountInWindow then
    (cfg.cooldownPeriod,
      { st with cooldownUntil := now + cfg.cooldownPeriod, messageCountInWindow := 0 })
  else
    let timeSinceLastMessage := now - st.lastMessageTime
    let requiredDelay := getHumanDelay cfg r false
    if timeSinceLastMessage < requiredDelay then
      (requiredDelay - timeSinceLastMessage, st)
    else
      (0, st)

/-- One record of `messageHistory` (source lines 267-272). -/
structure HistoryEntry where
  recipientId : String
  message : String
  hasMedia : Bool
  timestamp : ℤ
  deriving Repr, DecidableEq

/-- `MAX_HISTORY_SIZE` (source line 222). -/
def MAX_HISTORY_SIZE : ℕ := 50

/-- `addToHistory(recipientId, message, hasMedia)` (source lines 266-278):
push an entry holding the first 50 characters of the message, then `shift()`
the oldest entry when the size bound is exceeded. -/
def addToHistory (hist : List HistoryEntry) (recipientId message : String)
    (hasMedia : Bool) (now : ℤ) : List HistoryEntry :=
  let h := hist ++ [⟨recipientId, message.take 50, hasMedia, now⟩]
  if MAX_HISTORY_SIZE < h.length then h.drop 1 else h

/-- `detectSuspiciousPattern(recipientId, message)` (source lines 281-301):
suspicious when at least 3 history entries of the last 60 s carry exactly the
candidate's 50-character digest, or at least 3 entries of the last 10 s share
the candidate's recipient. -/
def detectSuspiciousPattern (hist : List HistoryEntry)
    (recipientId message : String) (now : ℤ) : Bool :=
  let recentMessages :=
    (hist.filter (fun m => decide (now - m.timestamp < 60000))).filter
      (fun m => m.message == message.take 50)
  if 3 ≤ recentMessages.length then
    true
  else
    let sameRecipient :=
      (hist.filter (fun m => decide (now - m.timestamp < 10000))).filter
        (fun m => m.recipientId == recipientId)

    3 ≤ sameRecipient.length

/-- The hourly history-cleanup interval callback (source lines 1678-1693):
drop entries older than 24 h (backwards splice = order-preserving filter),
then clamp to the newest `MAX_HISTORY_SIZE` entries. -/
def historyCleanup (hist : List HistoryEntry) (now : ℤ) : List HistoryEntry :=
  let maxAge : ℤ := 24 * 60 * 60 * 1000
  let kept := hist.filter (fun m => decide (¬ maxAge < now - m.timestamp))
  if MAX_HISTORY_SIZE < kept.length then kept.drop (kept.length - MAX_HISTORY_SIZE)
  else kept

/-- A queued unit (the object pushed by `queueMessage`, source lines 367-381).
`rWait` and `rSend` are the `Math.random()` draws consumed by the
`getHumanDelay()` calls inside `shouldWait()` and before the send;
`sendDuration` is how long the awaited `sendFunction()` call takes and
`sendOk` whether it resolves (`true`) or throws/rejects (`false`). -/
structure QueueItem where
  recipientId : String
  message : String
  hasMedia : Bool
  rWait : ℚ
  rSend : ℚ
  sendDuration : ℤ
  sendOk : Bool
  deriving Repr, DecidableEq

/-- The whole mutable state seen by the worker loop: the clock, the rate
variables, the history list, and the fire times of the pending
`setTimeout` decay callbacks scheduled at source lines 350-353. -/
structure WorkerState where
  now : ℤ
  rate : RateState
  history : List HistoryEntry
  pendingDecays : List ℤ
  deriving Repr, DecidableEq

/-- One decay callback:
`messageCountInWindow = Math.max(0, messageCountInWindow - 1)`
(source line 352). -/
def applyDecay (c : ℤ) : ℤ := max 0 (c - 1)

/-- `k` decay callbacks in sequence. -/
def applyDecays (c : ℤ) : ℕ → ℤ
  | 0 => c
  | k + 1 => applyDecays (applyDecay c) k

/-- Awaiting for `d` milliseconds: the clock moves to `now + d` and every
pending decay timer whose fire time has come runs (timer callbacks can only
run while the worker is suspended at an `await`). -/
def advance (st : WorkerState) (d : ℤ) : WorkerState :=
  let t := st.now + d
  let fired := st.pendingDecays.filter (fun ft => decide (ft ≤ t))
  let remaining := st.pendingDecays.filter (fun ft => decide (¬ ft ≤ t))
  { st with
    now := t
    rate := { st.rate with
      messageCountInWindow := applyDecays st.rate.messageCountInWindow fired.length }
    pendingDecays := remaining }

/-- What the worker loop did with one unit: the `shouldWait()` result, the
pattern-detector verdict and the extra wait it caused, and how the unit's
promise was settled.  `dispatched` records that `sendFunction()` was
invoked. -/
structure DispatchEvent where
  recipientId : String
  message : String
  rateWait : ℤ
  suspicious : Bool
  patternWait : ℤ
  dispatched : Bool
  resolved : Bool
  rejected : Bool
  deriving Repr, DecidableEq

/-- Phase 1 of a worker cycle (source lines 315-320): compute `shouldWait()`
and await it when positive. -/
def ratePhase (cfg : AntiConfig) (st : WorkerState) (it : QueueItem) :
    ℤ × WorkerState :=
  let ws := shouldWait cfg st.rate st.now it.rWait
  let st' := { st with rate := ws.2 }
  (ws.1, if 0 < ws.1 then advance st' ws.1 else st')

/-- Phase 2 of a worker cycle (source lines 322-325): pattern check and, when
flagged, one extra `cooldownPeriod` wait. -/
def patternPhase (cfg : AntiConfig) (st : WorkerState) (it : QueueItem) :
    Bool × WorkerState :=
  let susp := detectSuspiciousPattern st.history it.recipientId it.message st.now
  (susp, if susp then advance st cfg.cooldownPeriod else st)

/-- Phase 3 of a worker cycle (source lines 332-338): the human-like delay
(only once a message has been sent before), then the awaited
`sendFunction()` call itself. -/
def delayPhase (cfg : AntiConfig) (st : WorkerState) (it : QueueItem) :
    WorkerState :=
  let delay := getHumanDelay cfg it.rSend it.hasMedia
  let st' := if 0 < delay ∧ 0 < st.rate.lastMessageTime then advance st delay else st
  advance st' it.sendDuration

/-- Phase 4 (source lines 340-361): on success update `lastMessageTime`,
increment `messageCountInWindow`, append to history, resolve the promise and
schedule the decay timer; on failure only reject the promise — the `catch`
block performs no tracking update. -/
def recordPhase (cfg : AntiConfig) (st : WorkerState) (it : QueueItem)
    (rateWait : ℤ) (susp : Bool) : WorkerState × DispatchEvent :=
  let patternWait : ℤ := if susp then cfg.cooldownPeriod else 0
  if it.sendOk then
    ({ st with
        rate := { st.rate with
          lastMessageTime := st.now
          messageCountInWindow := st.rate.messageCountInWindow + 1 }
        history := addToHistory st.history it.recipientId it.message it.hasMedia st.now
        pendingDecays := st.pendingDecays ++ [st.now + cfg.cooldownPeriod] },
      ⟨it.recipientId, it.message, rateWait, susp, patternWait, true, true, false⟩)
  else
    (st, ⟨it.recipientId, it.message, rateWait, susp, patternWait, true, false, true⟩)

/-- One full cycle of the worker loop body of `processMessageQueue`
(source lines 313-361) on the head unit of the queue. -/
def processItem (cfg : AntiConfig) (st : WorkerState) (it : QueueItem) :
    WorkerState × DispatchEvent :=
  let rw := ratePhase cfg st it
  let pp := patternPhase cfg rw.2 it
  let st3 := delayPhase cfg pp.2 it
  recordPhase cfg st3 it rw.1 pp.1

/-- `processMessageQueue` (source lines 304-364) on the units queued before
the worker starts: drain the queue head-first, producing one dispatch event
per unit in processing order. -/
def processMessageQueue (cfg : AntiConfig) (st : WorkerState) :
    List QueueItem → WorkerState × List DispatchEvent
  | [] => (st, [])
  | it :: rest =>
    let r := processItem cfg st it
    let r' := processMessageQueue cfg r.1 rest
    (r'.1, r.2 :: r'.2)

/-- The fresh module state at process start (source lines 214-222):
`lastMessageTime = 0`, `messageCountInWindow = 0`, `cooldownUntil = 0`, an
empty history and no pending timers, at clock value `t0`. -/
def freshState (t0 : ℤ) : WorkerState :=
  ⟨t0, ⟨0, 0, 0⟩, [], []⟩

/-! ### Helper lemmas -/

theorem getHumanDelay_zero_lit (cp mx : ℤ) (mult : ℚ) (r : ℚ) (b : Bool) :
    getHumanDelay ⟨0, 0, cp, mx, mult⟩ r b = 0 := by
  unfold getHumanDelay jsRound
  norm_num

theorem recordPhase_snd (cfg : AntiConfig) (st : WorkerState) (it : QueueItem)
    (w : ℤ) (s : Bool) :
    (recordPhase cfg st it w s).2 =
      ⟨it.recipientId, it.message, w, s, if s then cfg.cooldownPeriod else 0,
        true, it.sendOk, !it.sendOk⟩ := by
  unfold recordPhase
  cases h : it.sendOk <;> simp [h]

theorem processItem_snd (cfg : AntiConfig) (st : WorkerState) (it : QueueItem) :
    (processItem cfg st it).2 =
      ⟨it.recipientId, it.message, (ratePhase cfg st it).1,
        (patternPhase cfg (ratePhase cfg st it).2 it).1,
        if (patternPhase cfg (ratePhase cfg st it).2 it).1 then cfg.cooldownPeriod else 0,
        true, it.sendOk, !it.sendOk⟩ := by
  unfold processItem
  exact recordPhase_snd ..

theorem recordPhase_fst_of_fail (cfg : AntiConfig) (st : WorkerState)
    (it : QueueItem) (w : ℤ) (s : Bool) (h : it.sendOk = false) :
    (recordPhase cfg st it w s).1 = st := by
  unfold recordPhase
  simp [h]

theorem advance_history (st : WorkerState) (d : ℤ) :
    (advance st d).history = st.history := rfl

theorem advance_lastMessageTime (st : WorkerState) (d : ℤ) :
    (advance st d).rate.lastMessageTime = st.rate.lastMessageTime := rfl

theorem advance_cooldownUntil (st : WorkerState) (d : ℤ) :
    (advance st d).rate.cooldownUntil = st.rate.cooldownUntil := rfl

theorem shouldWait_snd_lastMessageTime (cfg : AntiConfig) (st : RateState)
    (now : ℤ) (r : ℚ) :
    (shouldWait cfg st now r).2.lastMessageTime = st.lastMessageTime := by
  unfold shouldWait
  split
  · rfl
  split
  · rfl
  dsimp only
  split <;> rfl

theorem ratePhase_history (cfg : AntiConfig) (st : WorkerState) (it : QueueItem) :
    (ratePhase cfg st it).2.history = st.history := by
  unfold ratePhase
  dsimp only
  split <;> rfl

theorem ratePhase_lastMessageTime (cfg : AntiConfig) (st : WorkerState)
    (it : QueueItem) :
    (ratePhase cfg st it).2.rate.lastMessageTime = st.rate.lastMessageTime := by
  unfold ratePhase
  dsimp only
  split
  · exact (advance_lastMessageTime ..).trans (shouldWait_snd_lastMessageTime ..)
  · exact shouldWait_snd_lastMessageTime ..

theorem patternPhase_history (cfg : AntiConfig) (st : WorkerState) (it : QueueItem) :
    (patternPhase cfg st it).2.history = st.history := by
  unfold patternPhase
  dsimp only
  split <;> rfl

theorem patternPhase_lastMessageTime (cfg : AntiConfig) (st : WorkerState)
    (it : QueueItem) :
    (patternPhase cfg st it).2.rate.lastMessageTime = st.rate.lastMessageTime := by
  unfold patternPhase
  dsimp only
  split <;> rfl

theorem delayPhase_history (cfg : AntiConfig) (st : WorkerState) (it : QueueItem) :
    (delayPhase cfg st it).history = st.history := by
  unfold delayPhase
  dsimp only
  split <;> rfl

theorem delayPhase_lastMessageTime (cfg : AntiConfig) (st : WorkerState)
    (it : QueueItem) :
    (delayPhase cfg st it).rate.lastMessageTime = st.rate.lastMessageTime := by
  unfold delayPhase
  dsimp only
  split <;> rfl

/-! ### Concrete test fixtures -/

/-- The configuration of the spec's own test scenario: `minDelay = 0`,
`maxDelay = 0`, `cooldownPeriod = 30000`, `maxMessagesBeforeCooldown = 5`. -/
def cfgZero : AntiConfig := ⟨0, 0, 30000, 5, 3/2⟩

/-- A unit whose `sendFunction` rejects. -/
def failItem : QueueItem := ⟨"r1", "hello", false, 0, 0, 0, false⟩

/-- A unit whose `sendFunction` resolves. -/
def okItem : QueueItem := ⟨"r2", "world", false, 0, 0, 0, true⟩

/-! ### C1 -/

/-- C1: for every sequence of units queued before the worker starts, the
worker invokes `sendFunction` for the units in exactly submission order
(the event list of `processMessageQueue` maps one-to-one onto the queue, in
order), and every unit is dispatched, regardless of its `hasMedia` flag or
suspicion status. -/
theorem dispatch_fifo_order (cfg : AntiConfig) (st : WorkerState)
    (items : List QueueItem) :
    (processMessageQueue cfg st items).2.map (fun e => (e.recipientId, e.message)) =
      items.map (fun i => (i.recipientId, i.message)) ∧
    (processMessageQueue cfg st items).2.all (fun e => e.dispatched) = true := by
  induction items generalizing st with
  | nil => simp [processMessageQueue]
  | cons it rest ih =>
    have h := processItem_snd cfg st it
    have hrest := ih (processItem cfg st it).1
    simp only [processMessageQueue, List.map_cons, List.all_cons, h] at *
    exact ⟨by rw [hrest.1], by simp [hrest.2]⟩

/-! ### C2 -/

/-- C2 counterexample: from fresh state, a single unit whose send fails is
processed, yet `messageCountInWindow` is NOT incremented (stays 0, not 1)
and `lastMessageTime` is NOT recorded (stays 0, not the dispatch time 1000):
the claimed counter updates after a failed attempt do not happen. -/
theorem failed_send_counterexample :
    (processMessageQueue cfgZero (freshState 1000) [failItem]).1.rate.messageCountInWindow = 0 ∧
    (processMessageQueue cfgZero (freshState 1000) [failItem]).1.rate.lastMessageTime = 0 := by
  simp [processMessageQueue, processItem, ratePhase, patternPhase, delayPhase,
    recordPhase, shouldWait, advance, addToHistory, detectSuspiciousPattern,
    getHumanDelay_zero_lit, freshState, failItem, applyDecays, cfgZero]

/-- C2 amended: when a unit's `sendFunction` throws or rejects, the worker
performs no tracking update for it: the history is left unchanged,
`lastMessageTime` is left unchanged (and `messageCountInWindow` is not
incremented, no decay timer is scheduled), and the unit's promise is
rejected, not resolved.  Counters are updated only on success. -/
theorem failed_send_skips_tracking (cfg : AntiConfig) (st : WorkerState)
    (it : QueueItem) (h : it.sendOk = false) :
    (processItem cfg st it).1.history = st.history ∧
    (processItem cfg st it).1.rate.lastMessageTime = st.rate.lastMessageTime ∧
    (processItem cfg st it).1.pendingDecays =
      (delayPhase cfg (patternPhase cfg (ratePhase cfg st it).2 it).2 it).pendingDecays ∧
    (processItem cfg st it).2.rejected = true ∧
    (processItem cfg st it).2.resolved = false := by
  have hfst : (processItem cfg st it).1 =
      delayPhase cfg (patternPhase cfg (ratePhase cfg st it).2 it).2 it := by
    unfold processItem
    exact recordPhase_fst_of_fail _ _ _ _ _ h
  have hsnd := processItem_snd cfg st it
  refine ⟨?_, ?_, ?_, ?_, ?_⟩
  · rw [hfst, delayPhase_history, patternPhase_history, ratePhase_history]
  · rw [hfst, delayPhase_lastMessageTime, patternPhase_lastMessageTime,
      ratePhase_lastMessageTime]
  · rw [hfst]
  · rw [hsnd]
    simp [h]
  · rw [hsnd]
    simp [h]

/-- Witness for `failed_send_skips_tracking` at a concrete failing unit. -/
theorem failed_send_skips_tracking_witness :
    failItem.sendOk = false ∧
    ((processItem cfgZero (freshState 1000) failItem).1.history =
        (freshState 1000).history ∧
      (processItem cfgZero (freshState 1000) failItem).1.rate.lastMessageTime =
        (freshState 1000).rate.lastMessageTime ∧
      (processItem cfgZero (freshState 1000) failItem).1.pendingDecays =
        (delayPhase cfgZero
          (patternPhase cfgZero (ratePhase cfgZero (freshState 1000) failItem).2
            failItem).2 failItem).pendingDecays ∧
      (processItem cfgZero (freshState 1000) failItem).2.rejected = true ∧
      (processItem cfgZero (freshState 1000) failItem).2.resolved = false) :=
  ⟨rfl, failed_send_skips_tracking cfgZero (freshState 1000) failItem rfl⟩

/-! ### C6 -/

/-- C6: if unit `k`'s send rejects, unit `k`'s future is rejected, the
worker loop continues, and the next unit is still dispatched and (when its
own send succeeds) resolved normally. -/
theorem failure_isolation (cfg : AntiConfig) (st : WorkerState)
    (it1 it2 : QueueItem) (rest : List QueueItem)
    (h1 : it1.sendOk = false) (h2 : it2.sendOk = true) :
    ((processMessageQueue cfg st (it1 :: it2 :: rest)).2.get? 0).map
        (fun e => (e.dispatched, e.resolved, e.rejected)) = some (true, false, true) ∧
    ((processMessageQueue cfg st (it1 :: it2 :: rest)).2.get? 1).map
        (fun e => (e.dispatched, e.resolved, e.rejected)) = some (true, true, false) := by
  simp only [processMessageQueue, List.get?]
  rw [processItem_snd, processItem_snd]
  simp [h1, h2]

/-- Witness for `failure_isolation` at concrete units. -/
theorem failure_isolation_witness :
    failItem.sendOk = false ∧ okItem.sendOk = true ∧
    (((processMessageQueue cfgZero (freshState 0) (failItem :: okItem :: [])).2.get? 0).map
        (fun e => (e.dispatched, e.resolved, e.rejected)) = some (true, false, true) ∧
      ((processMessageQueue cfgZero (freshState 0) (failItem :: okItem :: [])).2.get? 1).map
        (fun e => (e.dispatched, e.resolved, e.rejected)) = some (true, true, false)) :=
  ⟨rfl, rfl, failure_isolation cfgZero (freshState 0) failItem okItem [] rfl rfl⟩

/-! ### C9 -/

/-- An environment with `maxDelay` smaller than `minDelay`. -/
def badEnv : AntiEnv := ⟨some 5000, some 2000, none, none, none⟩

/-- C9 counterexample: startup accepts `MAX_MESSAGE_DELAY = 2000` below
`MIN_MESSAGE_DELAY = 5000` without any error — `loadAntiDetectionConfig` is a
total function, no `ConfigurationError` exists anywhere in the code — and the
engine then runs with the inverted range (`getHumanDelay` happily produces a
value). -/
theorem config_not_validated_counterexample :
    (loadAntiDetectionConfig badEnv).maxDelay < (loadAntiDetectionConfig badEnv).minDelay ∧
    getHumanDelay (loadAntiDetectionConfig badEnv) 0 false = 5000 := by
  constructor
  · decide
  · unfold loadAntiDetectionConfig orDefaultInt orDefaultRat badEnv getHumanDelay jsRound
    norm_num

/-- C9 amended: startup performs no validation at all: each tunable is read
with `parseInt`/`parseFloat` and a falsy-fallback default, so any nonzero
parsed values — including `maxDelay < minDelay`, negative periods, or a
multiplier below 1 — are accepted verbatim and silently; there is no
`ConfigurationError` and nothing fails fast. -/
theorem config_accepted_verbatim (mn mx cp mm : ℤ) (mult : ℚ)
    (h1 : mn ≠ 0) (h2 : mx ≠ 0) (h3 : cp ≠ 0) (h4 : mm ≠ 0) (h5 : mult ≠ 0) :
    loadAntiDetectionConfig ⟨some mn, some mx, some cp, some mm, some mult⟩ =
      ⟨mn, mx, cp, mm, mult⟩ := by
  unfold loadAntiDetectionConfig orDefaultInt orDefaultRat
  simp [h1, h2, h3, h4, h5]

/-- Witness for `config_accepted_verbatim` at clearly invalid values
(`maxDelay < minDelay`, negative cooldown, negative send budget,
multiplier `1/2 < 1`). -/
theorem config_accepted_verbatim_witness :
    (5000 : ℤ) ≠ 0 ∧ (2000 : ℤ) ≠ 0 ∧ (-7 : ℤ) ≠ 0 ∧ (-1 : ℤ) ≠ 0 ∧ (1/2 : ℚ) ≠ 0 ∧
    loadAntiDetectionConfig ⟨some 5000, some 2000, some (-7), some (-1), some (1/2)⟩ =
      ⟨5000, 2000, -7, -1, 1/2⟩ :=
  ⟨by decide, by decide, by decide, by decide, by norm_num,
    config_accepted_verbatim 5000 2000 (-7) (-1) (1/2) (by decide) (by decide)
      (by decide) (by decide) (by norm_num)⟩

/-! ### C10 -/

/-- C10: the stored `contentDigest` is exactly the first 50 characters of
the message body (`addToHistory` appends an entry whose `message` field is
`message.take 50`), and `detectSuspiciousPattern` compares only these
50-character digests: two messages with equal first-50-character snapshots
are treated as identical content, so messages differing only after character
50 count toward each other's repetition threshold. -/
theorem contentDigest_is_50_char_snapshot (hist : List HistoryEntry)
    (r m1 m2 : String) (hm : Bool) (t now : ℤ)
    (h : m1.take 50 = m2.take 50) :
    (addToHistory hist r m1 hm t).getLast? = some ⟨r, m1.take 50, hm, t⟩ ∧
    detectSuspiciousPattern hist r m1 now = detectSuspiciousPattern hist r m2 now := by
  constructor
  · unfold addToHistory
    dsimp only
    split
    · rcases hist with _ | ⟨x, hs⟩
      · simp [MAX_HISTORY_SIZE] at *
      · simp
    · simp
  · unfold detectSuspiciousPattern
    simp only [h]

set_option maxRecDepth 100000 in
/-- Witness for `contentDigest_is_50_char_snapshot`: two 51-character
messages that agree on their first 50 characters but end differently. -/
theorem contentDigest_witness :
    (String.mk (List.replicate 50 'a' ++ ['x'])).take 50 =
      (String.mk (List.replicate 50 'a' ++ ['y'])).take 50 ∧
    ((addToHistory [] "r" (String.mk (List.replicate 50 'a' ++ ['x'])) false 5).getLast? =
        some ⟨"r", (String.mk (List.replicate 50 'a' ++ ['x'])).take 50, false, 5⟩ ∧
      detectSuspiciousPattern [] "r" (String.mk (List.replicate 50 'a' ++ ['x'])) 9 =
        detectSuspiciousPattern [] "r" (String.mk (List.replicate 50 'a' ++ ['y'])) 9) := by
  have h : (String.mk (List.replicate 50 'a' ++ ['x'])).take 50 =
      (String.mk (List.replicate 50 'a' ++ ['y'])).take 50 := by
    decide
  exact ⟨h, contentDigest_is_50_char_snapshot [] "r" _ _ false 5 9 h⟩

/-! ### C4 -/

/-- A configuration with the valid range `[40, 40]`: rounding to the nearest
100 ms step leaves the configured interval. -/
def cfg40 : AntiConfig := ⟨40, 40, 30000, 5, 3/2⟩

/-- C4 counterexample: with the valid configuration `minDelay = maxDelay = 40`
(`0 ≤ 40 ≤ 40`, multiplier `3/2 ≥ 1`) and any draw, `getHumanDelay(false)`
returns `0`, which is NOT in `[minDelay, maxDelay] = [40, 40]`: rounding to
the nearest 100 ms can leave the configured interval. -/
theorem delay_out_of_bounds_counterexample :
    (0 : ℤ) ≤ cfg40.minDelay ∧ cfg40.minDelay ≤ cfg40.maxDelay ∧
    (1 : ℚ) ≤ cfg40.mediaDelayMultiplier ∧
    getHumanDelay cfg40 0 false = 0 ∧
    ¬ (cfg40.minDelay ≤ getHumanDelay cfg40 0 false) := by
  refine ⟨by decide, by decide, by norm_num [cfg40], ?_, ?_⟩
  · unfold getHumanDelay jsRound cfg40
    norm_num
  · unfold getHumanDelay jsRound cfg40
    norm_num

theorem jsRound_step_bounds (x : ℚ) :
    x - 50 ≤ ((jsRound (x/100) * 100 : ℤ) : ℚ) ∧
    ((jsRound (x/100) * 100 : ℤ) : ℚ) ≤ x + 50 := by
  unfold jsRound
  have h1 := Int.floor_le (x/100 + 1/2)
  have h2 := Int.sub_one_lt_floor (x/100 + 1/2)
  push_cast
  constructor <;> linarith

/-- C4 amended: for every valid configuration (`0 ≤ minDelay ≤ maxDelay`,
`mediaDelayMultiplier ≥ 1`) and draw `0 ≤ r < 1`, `getHumanDelay(false)`
returns a multiple of 100 ms lying within 50 ms of `[minDelay, maxDelay]`
(i.e. in `[minDelay - 50, maxDelay + 50]`), and `getHumanDelay(true)` returns
a multiple of 100 ms within 50 ms of `[minDelay·mult, maxDelay·mult]`; the
exact interval membership claimed fails because of the rounding step. -/
theorem human_delay_bounds (cfg : AntiConfig) (r : ℚ)
    (hmin : 0 ≤ cfg.minDelay) (hle : cfg.minDelay ≤ cfg.maxDelay)
    (hmult : 1 ≤ cfg.mediaDelayMultiplier) (hr0 : 0 ≤ r) (hr1 : r < 1) :
    ((100 : ℤ) ∣ getHumanDelay cfg r false) ∧
    (cfg.minDelay : ℚ) - 50 ≤ (getHumanDelay cfg r false : ℚ) ∧
    (getHumanDelay cfg r false : ℚ) ≤ (cfg.maxDelay : ℚ) + 50 ∧
    ((100 : ℤ) ∣ getHumanDelay cfg r true) ∧
    (cfg.minDelay : ℚ) * cfg.mediaDelayMultiplier - 50 ≤ (getHumanDelay cfg r true : ℚ) ∧
    (getHumanDelay cfg r true : ℚ) ≤ (cfg.maxDelay : ℚ) * cfg.mediaDelayMultiplier + 50 := by
  have hsub : (0 : ℚ) ≤ (cfg.maxDelay : ℚ) - (cfg.minDelay : ℚ) := by
    have : (cfg.minDelay : ℚ) ≤ (cfg.maxDelay : ℚ) := by exact_mod_cast hle
    linarith
  have h1 : (cfg.minDelay : ℚ) ≤
      (cfg.minDelay : ℚ) + r * ((cfg.maxDelay : ℚ) - (cfg.minDelay : ℚ)) :=
    le_add_of_nonneg_right (mul_nonneg hr0 hsub)
  have h2 : (cfg.minDelay : ℚ) + r * ((cfg.maxDelay : ℚ) - (cfg.minDelay : ℚ)) ≤
      (cfg.maxDelay : ℚ) := by nlinarith
  have hmult0 : (0 : ℚ) ≤ cfg.mediaDelayMultiplier := le_trans zero_le_one hmult
  have h3 := mul_le_mul_of_nonneg_right h1 hmult0
  have h4 := mul_le_mul_of_nonneg_right h2 hmult0
  have hb := jsRound_step_bounds
    ((cfg.minDelay : ℚ) + r * ((cfg.maxDelay : ℚ) - (cfg.minDelay : ℚ)))
  have hbm := jsRound_step_bounds
    (((cfg.minDelay : ℚ) + r * ((cfg.maxDelay : ℚ) - (cfg.minDelay : ℚ))) *
      cfg.mediaDelayMultiplier)
  unfold getHumanDelay
  simp only [if_true, if_false, Bool.false_eq_true, ite_false, ite_true]
  refine ⟨dvd_mul_left 100 _, ?_, ?_, dvd_mul_left 100 _, ?_, ?_⟩
  · linarith [hb.1]
  · linarith [hb.2]
  · linarith [hbm.1]
  · linarith [hbm.2]

/-- Witness for `human_delay_bounds` at the default configuration and draw 0. -/
theorem human_delay_bounds_witness :
    (0 : ℤ) ≤ (loadAntiDetectionConfig ⟨none, none, none, none, none⟩).minDelay ∧
    (loadAntiDetectionConfig ⟨none, none, none, none, none⟩).minDelay ≤
      (loadAntiDetectionConfig ⟨none, none, none, none, none⟩).maxDelay ∧
    (1 : ℚ) ≤ (loadAntiDetectionConfig ⟨none, none, none, none, none⟩).mediaDelayMultiplier ∧
    (0 : ℚ) ≤ 0 ∧ (0 : ℚ) < 1 ∧
    (((100 : ℤ) ∣ getHumanDelay (loadAntiDetectionConfig ⟨none, none, none, none, none⟩) 0 false) ∧
      ((loadAntiDetectionConfig ⟨none, none, none, none, none⟩).minDelay : ℚ) - 50 ≤
        (getHumanDelay (loadAntiDetectionConfig ⟨none, none, none, none, none⟩) 0 false : ℚ) ∧
      (getHumanDelay (loadAntiDetectionConfig ⟨none, none, none, none, none⟩) 0 false : ℚ) ≤
        ((loadAntiDetectionConfig ⟨none, none, none, none, none⟩).maxDelay : ℚ) + 50 ∧
      ((100 : ℤ) ∣ getHumanDelay (loadAntiDetectionConfig ⟨none, none, none, none, none⟩) 0 true) ∧
      ((loadAntiDetectionConfig ⟨none, none, none, none, none⟩).minDelay : ℚ) *
          (loadAntiDetectionConfig ⟨none, none, none, none, none⟩).mediaDelayMultiplier - 50 ≤
        (getHumanDelay (loadAntiDetectionConfig ⟨none, none, none, none, none⟩) 0 true : ℚ) ∧
      (getHumanDelay (loadAntiDetectionConfig ⟨none, none, none, none, none⟩) 0 true : ℚ) ≤
        ((loadAntiDetectionConfig ⟨none, none, none, none, none⟩).maxDelay : ℚ) *
          (loadAntiDetectionConfig ⟨none, none, none, none, none⟩).mediaDelayMultiplier + 50) :=
  ⟨by decide, by decide, by norm_num [loadAntiDetectionConfig, orDefaultRat],
    le_rfl, by norm_num,
    human_delay_bounds (loadAntiDetectionConfig ⟨none, none, none, none, none⟩) 0
      (by decide) (by decide)
      (by norm_num [loadAntiDetectionConfig, orDefaultRat]) le_rfl (by norm_num)⟩

/-! ### C5 -/

theorem getHumanDelay_of_min_max_zero (cfg : AntiConfig) (r : ℚ) (b : Bool)
    (h1 : cfg.minDelay = 0) (h2 : cfg.maxDelay = 0) :
    getHumanDelay cfg r b = 0 := by
  unfold getHumanDelay jsRound
  rw [h1, h2]
  norm_num

/-- Under a zero-delay configuration, with no cooldown pending, a send budget
not yet exhausted and a clock not behind `lastMessageTime`, `shouldWait()`
requires no wait and phase 1 leaves the state untouched. -/
theorem ratePhase_noWait (cfg : AntiConfig) (st : WorkerState) (it : QueueItem)
    (hcu : st.rate.cooldownUntil ≤ st.now)
    (hcnt : st.rate.messageCountInWindow < cfg.maxMessagesBeforeCooldown)
    (hlmt : st.rate.lastMessageTime ≤ st.now)
    (hmin : cfg.minDelay = 0) (hmax : cfg.maxDelay = 0) :
    ratePhase cfg st it = (0, st) := by
  have hd : getHumanDelay cfg it.rWait false = 0 :=
    getHumanDelay_of_min_max_zero cfg it.rWait false hmin hmax
  unfold ratePhase shouldWait
  dsimp only
  rw [hd, if_neg (not_lt.2 hcu), if_neg (not_le.2 hcnt),
    if_neg (by omega : ¬ st.now - st.rate.lastMessageTime < 0)]
  norm_num

/-- `(patternPhase …).1` is exactly the pattern-detector verdict. -/
theorem patternPhase_fst (cfg : AntiConfig) (st : WorkerState) (it : QueueItem) :
    (patternPhase cfg st it).1 =
      detectSuspiciousPattern st.history it.recipientId it.message st.now := rfl

/-- C5 counterexample: with the zero-delay configuration, submitting three
units carrying the same content digest `"dup"` back-to-back (all within 60
seconds, distinct recipients) does NOT flag the third unit: no unit of the
run is flagged suspicious, because when the third is checked only two
matching history entries exist and the rule requires at least three. -/
theorem third_repetition_not_flagged_counterexample :
    ((processMessageQueue cfgZero (freshState 0)
      [⟨"r1", "dup", false, 0, 0, 0, true⟩,
       ⟨"r2", "dup", false, 0, 0, 0, true⟩,
       ⟨"r3", "dup", false, 0, 0, 0, true⟩]).2.map
        (fun e => (e.suspicious, e.patternWait))) =
      [(false, 0), (false, 0), (false, 0)] := by
  set_option maxRecDepth 8000 in
  simp [processMessageQueue, processItem, ratePhase, patternPhase, delayPhase,
    recordPhase, shouldWait, advance, addToHistory, detectSuspiciousPattern,
    getHumanDelay_zero_lit, freshState, applyDecays, cfgZero, MAX_HISTORY_SIZE]

/-- C5 amended: a unit is flagged suspicious when at least three already
dispatched history entries of the trailing 60 seconds carry its content
digest — i.e. in a fresh run it is the fourth identical submission, not the
third, that is flagged (history records a unit only after its dispatch).
Such a flagged unit incurs one additional full `cooldownPeriod` wait on top
of the rate/cooldown wait, and is still dispatched and resolved, not
rejected. -/
theorem repetition_flagged_after_three_dispatched (cfg : AntiConfig)
    (st : WorkerState) (it : QueueItem)
    (hcu : st.rate.cooldownUntil ≤ st.now)
    (hcnt : st.rate.messageCountInWindow < cfg.maxMessagesBeforeCooldown)
    (hlmt : st.rate.lastMessageTime ≤ st.now)
    (hmin : cfg.minDelay = 0) (hmax : cfg.maxDelay = 0)
    (hok : it.sendOk = true)
    (hrep : 3 ≤ ((st.history.filter (fun m => decide (st.now - m.timestamp < 60000))).filter
        (fun m => m.message == it.message.take 50)).length) :
    (processItem cfg st it).2.suspicious = true ∧
    (processItem cfg st it).2.patternWait = cfg.cooldownPeriod ∧
    (processItem cfg st it).2.dispatched = true ∧
    (processItem cfg st it).2.resolved = true ∧
    (processItem cfg st it).2.rejected = false := by
  have hrp := ratePhase_noWait cfg st it hcu hcnt hlmt hmin hmax
  have hdet : detectSuspiciousPattern st.history it.recipientId it.message st.now = true := by
    unfold detectSuspiciousPattern
    dsimp only
    rw [if_pos hrep]
  have hsnd := processItem_snd cfg st it
  rw [hsnd, hrp]
  simp [patternPhase_fst, hdet, hok]

/-- A worker state in which three entries with digest `"dup"` were already
dispatched at time 1000, observed at clock 1000. -/
def repState : WorkerState :=
  ⟨1000, ⟨0, 0, 0⟩,
    [⟨"a", "dup", false, 1000⟩, ⟨"b", "dup", false, 1000⟩, ⟨"c", "dup", false, 1000⟩],
    []⟩

/-- The fourth unit carrying digest `"dup"`. -/
def fourthDupItem : QueueItem := ⟨"d", "dup", false, 0, 0, 0, true⟩

set_option maxRecDepth 8000 in
/-- Witness for `repetition_flagged_after_three_dispatched` at a concrete
state holding three dispatched `"dup"` entries. -/
theorem repetition_flagged_witness :
    repState.rate.cooldownUntil ≤ repState.now ∧
    repState.rate.messageCountInWindow < cfgZero.maxMessagesBeforeCooldown ∧
    repState.rate.lastMessageTime ≤ repState.now ∧
    cfgZero.minDelay = 0 ∧ cfgZero.maxDelay = 0 ∧
    fourthDupItem.sendOk = true ∧
    3 ≤ ((repState.history.filter
        (fun m => decide (repState.now - m.timestamp < 60000))).filter
        (fun m => m.message == fourthDupItem.message.take 50)).length ∧
    ((processItem cfgZero repState fourthDupItem).2.suspicious = true ∧
      (processItem cfgZero repState fourthDupItem).2.patternWait = cfgZero.cooldownPeriod ∧
      (processItem cfgZero repState fourthDupItem).2.dispatched = true ∧
      (processItem cfgZero repState fourthDupItem).2.resolved = true ∧
      (processItem cfgZero repState fourthDupItem).2.rejected = false) :=
  ⟨by decide, by decide, by decide, rfl, rfl, rfl, by decide,
    repetition_flagged_after_three_dispatched cfgZero repState fourthDupItem
      (by decide) (by decide) (by decide) rfl rfl rfl (by decide)⟩

/-! ### C7 -/

/-- An operation on the shared `messageHistory` list: a post-dispatch
`addToHistory` call or one run of the hourly cleanup interval. -/
inductive HistoryOp where
  | add (recipientId message : String) (hasMedia : Bool) (now : ℤ)
  | cleanup (now : ℤ)

/-- Apply one history operation. -/
def applyHistoryOp (hist : List HistoryEntry) : HistoryOp → List HistoryEntry
  | HistoryOp.add r m hm t => addToHistory hist r m hm t
  | HistoryOp.cleanup t => historyCleanup hist t

theorem addToHistory_length_le (hist : List HistoryEntry) (r m : String)
    (hm : Bool) (t : ℤ) (h : hist.length ≤ MAX_HISTORY_SIZE) :
    (addToHistory hist r m hm t).length ≤ MAX_HISTORY_SIZE := by
  unfold addToHistory
  dsimp only
  split
  · simpa using h
  · next hc =>
    simp only [List.length_append, List.length_singleton] at hc ⊢
    omega

theorem historyCleanup_length_le (hist : List HistoryEntry) (now : ℤ)
    (h : hist.length ≤ MAX_HISTORY_SIZE) :
    (historyCleanup hist now).length ≤ MAX_HISTORY_SIZE := by
  unfold historyCleanup
  dsimp only
  split
  · next hc => simp only [List.length_drop]; omega
  · next hc => omega

theorem cleanup_age_bound (hist : List HistoryEntry) (now : ℤ) (e : HistoryEntry)
    (he : e ∈ historyCleanup hist now) :
    now - e.timestamp ≤ 24 * 60 * 60 * 1000 := by
  unfold historyCleanup at he
  dsimp only at he
  have he' : e ∈ hist.filter
      (fun m => decide (¬ (24 * 60 * 60 * 1000 : ℤ) < now - m.timestamp)) := by
    split at he
    · exact List.mem_of_mem_drop he
    · exact he
  have hp := List.of_mem_filter he'
  simp only [decide_eq_true_eq, not_lt] at hp
  exact hp

theorem addToHistory_evicts_oldest (hist : List HistoryEntry) (r m : String)
    (hm : Bool) (t : ℤ) (h : MAX_HISTORY_SIZE ≤ hist.length) :
    addToHistory hist r m hm t = hist.drop 1 ++ [⟨r, m.take 50, hm, t⟩] := by
  unfold addToHistory
  dsimp only
  rw [if_pos (by simp only [List.length_append, List.length_singleton]; omega)]
  rw [List.drop_append_of_le_length (by unfold MAX_HISTORY_SIZE at h; omega)]

theorem history_ops_length_le (ops : List HistoryOp) (hist : List HistoryEntry)
    (h : hist.length ≤ MAX_HISTORY_SIZE) :
    (ops.foldl applyHistoryOp hist).length ≤ MAX_HISTORY_SIZE := by
  induction ops generalizing hist with
  | nil => exact h
  | cons op rest ih =>
    cases op with
    | add r m hm t => exact ih _ (addToHistory_length_le hist r m hm t h)
    | cleanup t => exact ih _ (historyCleanup_length_le hist t h)

/-- C7: across every interleaving of `addToHistory` calls and periodic
cleanup runs starting from a history within the bound, the history length
never exceeds `MAX_HISTORY_SIZE = 50`; when the bound is reached,
`addToHistory` evicts the oldest entry first (it drops the head of the
list, which is the earliest-appended entry); and every entry surviving a
cleanup run is at most 24 hours old. -/
theorem history_bound_invariant (ops : List HistoryOp) (hist : List HistoryEntry)
    (r m : String) (hm : Bool) (t now : ℤ) (e : HistoryEntry)
    (h : hist.length ≤ MAX_HISTORY_SIZE) :
    (ops.foldl applyHistoryOp hist).length ≤ MAX_HISTORY_SIZE ∧
    (MAX_HISTORY_SIZE ≤ hist.length →
      addToHistory hist r m hm t = hist.drop 1 ++ [⟨r, m.take 50, hm, t⟩]) ∧
    (e ∈ historyCleanup hist now → now - e.timestamp ≤ 24 * 60 * 60 * 1000) :=
  ⟨history_ops_length_le ops hist h,
    fun hfull => addToHistory_evicts_oldest hist r m hm t hfull,
    fun he => cleanup_age_bound hist now e he⟩

/-- A history already holding 50 entries. -/
def fullHistory : List HistoryEntry := List.replicate 50 ⟨"a", "x", false, 0⟩

set_option maxRecDepth 8000 in
/-- Witness for `history_bound_invariant` at a full 50-entry history with one
add and one cleanup queued. -/
theorem history_bound_invariant_witness :
    fullHistory.length ≤ MAX_HISTORY_SIZE ∧
    (([HistoryOp.add "b" "y" false 1, HistoryOp.cleanup 2].foldl applyHistoryOp
        fullHistory).length ≤ MAX_HISTORY_SIZE ∧
      (MAX_HISTORY_SIZE ≤ fullHistory.length →
        addToHistory fullHistory "b" "y" false 1 =
          fullHistory.drop 1 ++ [⟨"b", "y".take 50, false, 1⟩]) ∧
      (⟨"a", "x", false, 0⟩ ∈ historyCleanup fullHistory 2 →
        (2 : ℤ) - HistoryEntry.timestamp ⟨"a", "x", false, 0⟩ ≤ 24 * 60 * 60 * 1000)) :=
  ⟨by decide,
    history_bound_invariant [HistoryOp.add "b" "y" false 1, HistoryOp.cleanup 2]
      fullHistory "b" "y" false 1 2 ⟨"a", "x", false, 0⟩ (by decide)⟩

/-! ### C8 -/

theorem applyDecays_nonneg (c : ℤ) (k : ℕ) (h : 0 ≤ c) : 0 ≤ applyDecays c k := by
  induction k generalizing c with
  | zero => exact h
  | succ k ih => exact ih _ (le_max_left 0 _)

theorem advance_count_nonneg (st : WorkerState) (d : ℤ)
    (h : 0 ≤ st.rate.messageCountInWindow) :
    0 ≤ (advance st d).rate.messageCountInWindow :=
  applyDecays_nonneg _ _ h

theorem shouldWait_cooldownUntil_mono (cfg : AntiConfig) (st : RateState)
    (now : ℤ) (r : ℚ) (hcp : 0 ≤ cfg.cooldownPeriod) :
    st.cooldownUntil ≤ (shouldWait cfg st now r).2.cooldownUntil := by
  unfold shouldWait
  split
  · exact le_rfl
  · split
    · dsimp only
      omega
    · dsimp only
      split <;> exact le_rfl

theorem shouldWait_count_nonneg (cfg : AntiConfig) (st : RateState)
    (now : ℤ) (r : ℚ) (h : 0 ≤ st.messageCountInWindow) :
    0 ≤ (shouldWait cfg st now r).2.messageCountInWindow := by
  unfold shouldWait
  split
  · exact h
  · split
    · exact le_rfl
    · dsimp only
      split <;> exact h

theorem ratePhase_cooldownUntil_mono (cfg : AntiConfig) (st : WorkerState)
    (it : QueueItem) (hcp : 0 ≤ cfg.cooldownPeriod) :
    st.rate.cooldownUntil ≤ (ratePhase cfg st it).2.rate.cooldownUntil := by
  unfold ratePhase
  dsimp only
  split
  · rw [advance_cooldownUntil]
    exact shouldWait_cooldownUntil_mono cfg st.rate st.now it.rWait hcp
  · exact shouldWait_cooldownUntil_mono cfg st.rate st.now it.rWait hcp

theorem ratePhase_count_nonneg (cfg : AntiConfig) (st : WorkerState)
    (it : QueueItem) (h : 0 ≤ st.rate.messageCountInWindow) :
    0 ≤ (ratePhase cfg st it).2.rate.messageCountInWindow := by
  unfold ratePhase
  dsimp only
  split
  · exact applyDecays_nonneg _ _ (shouldWait_count_nonneg cfg st.rate st.now it.rWait h)
  · exact shouldWait_count_nonneg cfg st.rate st.now it.rWait h

theorem patternPhase_cooldownUntil (cfg : AntiConfig) (st : WorkerState)
    (it : QueueItem) :
    (patternPhase cfg st it).2.rate.cooldownUntil = st.rate.cooldownUntil := by
  unfold patternPhase
  dsimp only
  split <;> rfl

theorem patternPhase_count_nonneg (cfg : AntiConfig) (st : WorkerState)
    (it : QueueItem) (h : 0 ≤ st.rate.messageCountInWindow) :
    0 ≤ (patternPhase cfg st it).2.rate.messageCountInWindow := by
  unfold patternPhase
  dsimp only
  split
  · exact advance_count_nonneg st _ h
  · exact h

theorem delayPhase_cooldownUntil (cfg : AntiConfig) (st : WorkerState)
    (it : QueueItem) :
    (delayPhase cfg st it).rate.cooldownUntil = st.rate.cooldownUntil := by
  unfold delayPhase
  dsimp only
  split <;> rfl

theorem delayPhase_count_nonneg (cfg : AntiConfig) (st : WorkerState)
    (it : QueueItem) (h : 0 ≤ st.rate.messageCountInWindow) :
    0 ≤ (delayPhase cfg st it).rate.messageCountInWindow := by
  unfold delayPhase
  dsimp only
  split
  · exact advance_count_nonneg _ _ (advance_count_nonneg st _ h)
  · exact advance_count_nonneg st _ h

theorem recordPhase_cooldownUntil (cfg : AntiConfig) (st : WorkerState)
    (it : QueueItem) (w : ℤ) (s : Bool) :
    (recordPhase cfg st it w s).1.rate.cooldownUntil = st.rate.cooldownUntil := by
  unfold recordPhase
  dsimp only
  split <;> rfl

theorem recordPhase_count_nonneg (cfg : AntiConfig) (st : WorkerState)
    (it : QueueItem) (w : ℤ) (s : Bool) (h : 0 ≤ st.rate.messageCountInWindow) :
    0 ≤ (recordPhase cfg st it w s).1.rate.messageCountInWindow := by
  unfold recordPhase
  dsimp only
  split
  · dsimp only
    omega
  · exact h

theorem processItem_cooldownUntil_mono (cfg : AntiConfig) (st : WorkerState)
    (it : QueueItem) (hcp : 0 ≤ cfg.cooldownPeriod) :
    st.rate.cooldownUntil ≤ (processItem cfg st it).1.rate.cooldownUntil := by
  unfold processItem
  dsimp only
  rw [recordPhase_cooldownUntil, delayPhase_cooldownUntil, patternPhase_cooldownUntil]
  exact ratePhase_cooldownUntil_mono cfg st it hcp

theorem processItem_count_nonneg (cfg : AntiConfig) (st : WorkerState)
    (it : QueueItem) (h : 0 ≤ st.rate.messageCountInWindow) :
    0 ≤ (processItem cfg st it).1.rate.messageCountInWindow := by
  unfold processItem
  dsimp only
  exact recordPhase_count_nonneg _ _ _ _ _
    (delayPhase_count_nonneg _ _ _
      (patternPhase_count_nonneg _ _ _
        (ratePhase_count_nonneg _ _ _ h)))

/-- C8: across every sequence of worker operations (each dispatch cycle
includes the `shouldWait` update, any number of scheduled decay decrements
firing during awaits, and the post-send recording), `cooldownUntil` is
monotonically non-decreasing — no operation ever assigns it an earlier
value when `cooldownPeriod ≥ 0` — and `messageCountInWindow` never becomes
negative, since the decay decrement is floored at 0. -/
theorem rate_state_invariants (cfg : AntiConfig) (st : WorkerState)
    (items : List QueueItem) (hcp : 0 ≤ cfg.cooldownPeriod)
    (hcnt : 0 ≤ st.rate.messageCountInWindow) :
    st.rate.cooldownUntil ≤ (processMessageQueue cfg st items).1.rate.cooldownUntil ∧
    0 ≤ (processMessageQueue cfg st items).1.rate.messageCountInWindow := by
  induction items generalizing st with
  | nil => exact ⟨le_rfl, hcnt⟩
  | cons it rest ih =>
    have h1 := processItem_cooldownUntil_mono cfg st it hcp
    have h2 := processItem_count_nonneg cfg st it hcnt
    have h3 := ih (processItem cfg st it).1 h2
    exact ⟨le_trans h1 h3.1, h3.2⟩

/-- Witness for `rate_state_invariants` at the zero-delay configuration and
one successful unit from fresh state. -/
theorem rate_state_invariants_witness :
    (0 : ℤ) ≤ cfgZero.cooldownPeriod ∧
    (0 : ℤ) ≤ (freshState 0).rate.messageCountInWindow ∧
    ((freshState 0).rate.cooldownUntil ≤
        (processMessageQueue cfgZero (freshState 0) [okItem]).1.rate.cooldownUntil ∧
      0 ≤ (processMessageQueue cfgZero (freshState 0) [okItem]).1.rate.messageCountInWindow) :=
  ⟨by decide, by decide,
    rate_state_invariants cfgZero (freshState 0) [okItem] (by decide) (by decide)⟩

/-! ### C3 -/

/-- Pairwise-distinct content digests and recipients: the "all delays
otherwise zero" scenario must not trip the pattern detector. -/
def DistinctItems (its : List QueueItem) : Prop :=
  its.Pairwise (fun a b =>
    a.message.take 50 ≠ b.message.take 50 ∧ a.recipientId ≠ b.recipientId)

theorem detect_false_of_fresh (hist : List HistoryEntry) (r m : String) (now : ℤ)
    (h : ∀ e ∈ hist, e.message ≠ m.take 50 ∧ e.recipientId ≠ r) :
    detectSuspiciousPattern hist r m now = false := by
  unfold detectSuspiciousPattern
  have h1 : (hist.filter (fun mm => decide (now - mm.timestamp < 60000))).filter
      (fun mm => mm.message == m.take 50) = [] := by
    rw [List.filter_eq_nil]
    intro a ha
    have := (h a (List.mem_of_mem_filter ha)).1
    simpa using this
  have h2 : (hist.filter (fun mm => decide (now - mm.timestamp < 10000))).filter
      (fun mm => mm.recipientId == r) = [] := by
    rw [List.filter_eq_nil]
    intro a ha
    have := (h a (List.mem_of_mem_filter ha)).2
    simpa using this
  simp [h1, h2]

theorem advance_no_due_decays (st : WorkerState) (d : ℤ)
    (h : ∀ ft ∈ st.pendingDecays, ¬ ft ≤ st.now + d) :
    advance st d = { st with now := st.now + d } := by
  unfold advance
  have h1 : st.pendingDecays.filter (fun ft => decide (ft ≤ st.now + d)) = [] := by
    rw [List.filter_eq_nil]
    intro a ha
    simpa using h a ha
  have h2 : st.pendingDecays.filter (fun ft => decide (¬ ft ≤ st.now + d)) =
      st.pendingDecays := by
    rw [List.filter_eq_self]
    intro a ha
    simpa using h a ha
  dsimp only
  rw [h1, h2]
  simp [applyDecays]

theorem mem_addToHistory (hist : List HistoryEntry) (r m : String) (hm : Bool)
    (t : ℤ) (e : HistoryEntry) (he : e ∈ addToHistory hist r m hm t) :
    e ∈ hist ∨ e = ⟨r, m.take 50, hm, t⟩ := by
  unfold addToHistory at he
  dsimp only at he
  split at he
  · have := List.mem_of_mem_drop he
    simpa using this
  · simpa using he

/-- Invariant maintained while draining zero-delay units from a fresh start
at clock `t0`: the clock has not moved, `k` units were dispatched (all
counted in the window), no cooldown is pending, every recorded history entry
is fresh with respect to every remaining unit, and every scheduled decay
fires strictly after `t0`. -/
structure ZeroRunInv (cfg : AntiConfig) (t0 : ℤ) (its : List QueueItem)
    (k : ℤ) (st : WorkerState) : Prop where
  now_eq : st.now = t0
  lmt_nonneg : 0 ≤ st.rate.lastMessageTime
  lmt_le : st.rate.lastMessageTime ≤ t0
  count_eq : st.rate.messageCountInWindow = k
  cu_le : st.rate.cooldownUntil ≤ t0
  hist_fresh : ∀ e ∈ st.history, ∀ it2 ∈ its,
    e.message ≠ it2.message.take 50 ∧ e.recipientId ≠ it2.recipientId
  decays_gt : ∀ ft ∈ st.pendingDecays, t0 < ft

set_option maxRecDepth 8000 in
set_option maxHeartbeats 1600000 in
theorem zeroRun_step (cfg : AntiConfig) (t0 k : ℤ) (st : WorkerState)
    (it : QueueItem) (its : List QueueItem)
    (hmin : cfg.minDelay = 0) (hmax : cfg.maxDelay = 0)
    (hcp : 0 < cfg.cooldownPeriod) (ht0 : 0 ≤ t0)
    (hk : k < cfg.maxMessagesBeforeCooldown)
    (inv : ZeroRunInv cfg t0 (it :: its) k st)
    (hok : it.sendOk = true) (hdur : it.sendDuration = 0)
    (hfresh : ∀ it2 ∈ its,
      it.message.take 50 ≠ it2.message.take 50 ∧ it.recipientId ≠ it2.recipientId) :
    ZeroRunInv cfg t0 its (k + 1) (processItem cfg st it).1 := by
  have hnow := inv.now_eq
  have hrp : ratePhase cfg st it = (0, st) :=
    ratePhase_noWait cfg st it (by rw [hnow]; exact inv.cu_le)
      (by rw [inv.count_eq]; exact hk) (by rw [hnow]; exact inv.lmt_le) hmin hmax
  have hdet : detectSuspiciousPattern st.history it.recipientId it.message st.now = false :=
    detect_false_of_fresh _ _ _ _
      (fun e he => inv.hist_fresh e he it (List.mem_cons_self it its))
  have hpp : patternPhase cfg st it = (false, st) := by
    unfold patternPhase
    rw [hdet]
    simp
  have hdel : getHumanDelay cfg it.rSend it.hasMedia = 0 :=
    getHumanDelay_of_min_max_zero _ _ _ hmin hmax
  have hadv : advance st 0 = { st with now := st.now + 0 } := by
    apply advance_no_due_decays
    intro ft hft
    have := inv.decays_gt ft hft
    omega
  have hdp : delayPhase cfg st it = { st with now := st.now + 0 } := by
    unfold delayPhase
    dsimp only
    rw [hdel, hdur, if_neg (by simp)]
    exact hadv
  have hpi : (processItem cfg st it).1 =
      { st with
        now := st.now + 0
        rate := { st.rate with
          lastMessageTime := st.now + 0
          messageCountInWindow := st.rate.messageCountInWindow + 1 }
        history := addToHistory st.history it.recipientId it.message it.hasMedia
          (st.now + 0)
        pendingDecays := st.pendingDecays ++ [st.now + 0 + cfg.cooldownPeriod] } := by
    unfold processItem
    rw [hrp]
    dsimp only
    rw [hpp]
    dsimp only
    rw [hdp]
    unfold recordPhase
    rw [hok]
    simp
  refine ⟨?_, ?_, ?_, ?_, ?_, ?_, ?_⟩ <;> rw [hpi]
  · dsimp only
    omega
  · dsimp only
    omega
  · dsimp only
    omega
  · dsimp only
    rw [inv.count_eq]
  · dsimp only
    exact inv.cu_le
  · dsimp only
    intro e he it2 hit2
    rcases mem_addToHistory _ _ _ _ _ _ he with hold | hnew
    · exact inv.hist_fresh e hold it2 (List.mem_cons_of_mem it hit2)
    · subst hnew
      dsimp only
      exact hfresh it2 hit2
  · dsimp only
    intro ft hft
    rcases List.mem_append.1 hft with hold | hnew
    · exact inv.decays_gt ft hold
    · have : ft = st.now + 0 + cfg.cooldownPeriod := List.mem_singleton.1 hnew
      omega

theorem zeroRun_all (cfg : AntiConfig) (t0 : ℤ)
    (hmin : cfg.minDelay = 0) (hmax : cfg.maxDelay = 0)
    (hcp : 0 < cfg.cooldownPeriod) (ht0 : 0 ≤ t0) :
    ∀ (its : List QueueItem) (k : ℤ) (st : WorkerState),
      ZeroRunInv cfg t0 its k st →
      DistinctItems its →
      (∀ it2 ∈ its, it2.sendOk = true ∧ it2.sendDuration = 0) →
      k + its.length ≤ cfg.maxMessagesBeforeCooldown →
      ZeroRunInv cfg t0 [] (k + its.length) (processMessageQueue cfg st its).1 := by
  intro its
  induction its with
  | nil =>
    intro k st inv _ _ _
    simpa [processMessageQueue] using inv
  | cons it rest ih =>
    intro k st inv hdist hok hle
    have hpair := List.pairwise_cons.1 hdist
    have hlen' : k + (rest.length : ℤ) + 1 ≤ cfg.maxMessagesBeforeCooldown := by
      simp only [List.length_cons] at hle
      push_cast at hle
      omega
    have hstep := zeroRun_step cfg t0 k st it rest hmin hmax hcp ht0
      (by omega)
      inv (hok it (List.mem_cons_self it rest)).1 (hok it (List.mem_cons_self it rest)).2
      hpair.1
    have hrest := ih (k + 1) (processItem cfg st it).1 hstep hpair.2
      (fun x hx => hok x (List.mem_cons_of_mem it hx))
      (by omega)
    have hidx : (k + 1) + (rest.length : ℤ) = k + ((it :: rest).length : ℤ) := by
      simp only [List.length_cons]
      push_cast
      ring
    rw [hidx] at hrest
    simpa [processMessageQueue] using hrest

theorem ratePhase_fst (cfg : AntiConfig) (st : WorkerState) (it : QueueItem) :
    (ratePhase cfg st it).1 = (shouldWait cfg st.rate st.now it.rWait).1 := rfl

/-- `shouldWait()` with no cooldown pending and an exhausted budget: sets
`cooldownUntil = now + cooldownPeriod`, resets the window count to 0, and
returns `cooldownPeriod` (source lines 247-252). -/
theorem shouldWait_at_budget (cfg : AntiConfig) (rs : RateState) (now : ℤ) (r : ℚ)
    (h1 : ¬ now < rs.cooldownUntil)
    (h2 : cfg.maxMessagesBeforeCooldown ≤ rs.messageCountInWindow) :
    shouldWait cfg rs now r =
      (cfg.cooldownPeriod,
        { rs with cooldownUntil := now + cfg.cooldownPeriod, messageCountInWindow := 0 }) := by
  unfold shouldWait
  rw [if_neg h1, if_pos h2]

theorem processMessageQueue_append (cfg : AntiConfig) (st : WorkerState)
    (l1 l2 : List QueueItem) :
    processMessageQueue cfg st (l1 ++ l2) =
      ((processMessageQueue cfg (processMessageQueue cfg st l1).1 l2).1,
        (processMessageQueue cfg st l1).2 ++
          (processMessageQueue cfg (processMessageQueue cfg st l1).1 l2).2) := by
  induction l1 generalizing st with
  | nil => simp [processMessageQueue]
  | cons it rest ih => simp [processMessageQueue, ih]

/-- C3: from fresh state under a zero-delay configuration
(`minDelay = maxDelay = 0`, positive `cooldownPeriod`), submitting
`maxMessagesBeforeCooldown` successful back-to-back units (distinct digests
and recipients) followed by one more unit makes the final unit's
`shouldWait()` return exactly `cooldownPeriod` — a required wait of at least
`cooldownPeriodMs` before its dispatch; and in general, once
`messageCountInWindow` has reached `maxMessagesBeforeCooldown` with no
cooldown pending, `shouldWait` sets `cooldownUntil = now + cooldownPeriod`,
resets the count to 0, and returns `cooldownPeriod`. -/
theorem cooldown_trigger (cfg : AntiConfig) (t0 : ℤ)
    (front : List QueueItem) (lastIt : QueueItem)
    (hmin : cfg.minDelay = 0) (hmax : cfg.maxDelay = 0)
    (hcp : 0 < cfg.cooldownPeriod) (ht0 : 0 ≤ t0)
    (hlen : (front.length : ℤ) = cfg.maxMessagesBeforeCooldown)
    (hdist : DistinctItems front)
    (hok : ∀ it2 ∈ front, it2.sendOk = true ∧ it2.sendDuration = 0) :
    ((processMessageQueue cfg (freshState t0) (front ++ [lastIt])).2.getLast?).map
        (fun e => e.rateWait) = some cfg.cooldownPeriod ∧
    (∀ (rs : RateState) (now : ℤ) (r : ℚ), ¬ now < rs.cooldownUntil →
      cfg.maxMessagesBeforeCooldown ≤ rs.messageCountInWindow →
      shouldWait cfg rs now r =
        (cfg.cooldownPeriod,
          { rs with cooldownUntil := now + cfg.cooldownPeriod,
                    messageCountInWindow := 0 })) := by
  constructor
  · have inv0 : ZeroRunInv cfg t0 front 0 (freshState t0) :=
      ⟨rfl, le_rfl, ht0, rfl, ht0, by intro e he; simp [freshState] at he,
        by intro ft hft; simp [freshState] at hft⟩
    have invN := zeroRun_all cfg t0 hmin hmax hcp ht0 front 0 (freshState t0) inv0
      hdist hok (by omega)
    set stN := (processMessageQueue cfg (freshState t0) front).1 with hstN
    have hcount : stN.rate.messageCountInWindow = cfg.maxMessagesBeforeCooldown := by
      rw [invN.count_eq]
      omega
    have hlastWait : (processItem cfg stN lastIt).2.rateWait = cfg.cooldownPeriod := by
      rw [processItem_snd]
      dsimp only
      rw [ratePhase_fst]
      rw [shouldWait_at_budget cfg stN.rate stN.now lastIt.rWait
        (by rw [invN.now_eq]; exact not_lt.2 invN.cu_le)
        (by rw [hcount])]
    rw [processMessageQueue_append]
    simp only [processMessageQueue]
    rw [List.getLast?_concat]
    simp [hlastWait]
  · intro rs now r h1 h2
    exact shouldWait_at_budget cfg rs now r h1 h2

/-- Five successful zero-duration units with pairwise distinct digests and
recipients, exhausting the `maxMessagesBeforeCooldown = 5` budget. -/
def front5 : List QueueItem :=
  [⟨"r1", "m1", false, 0, 0, 0, true⟩,
   ⟨"r2", "m2", false, 0, 0, 0, true⟩,
   ⟨"r3", "m3", false, 0, 0, 0, true⟩,
   ⟨"r4", "m4", false, 0, 0, 0, true⟩,
   ⟨"r5", "m5", false, 0, 0, 0, true⟩]

/-- The sixth unit, hitting the cooldown trigger. -/
def sixthItem : QueueItem := ⟨"r6", "m6", false, 0, 0, 0, true⟩

set_option maxRecDepth 100000 in
/-- Witness for `cooldown_trigger`: the spec's own scenario at
`maxMessagesBeforeCooldown = 5`, zero delays, six units from fresh state. -/
theorem cooldown_trigger_witness :
    cfgZero.minDelay = 0 ∧ cfgZero.maxDelay = 0 ∧
    0 < cfgZero.cooldownPeriod ∧ (0 : ℤ) ≤ 0 ∧
    (front5.length : ℤ) = cfgZero.maxMessagesBeforeCooldown ∧
    DistinctItems front5 ∧
    (∀ it2 ∈ front5, it2.sendOk = true ∧ it2.sendDuration = 0) ∧
    (((processMessageQueue cfgZero (freshState 0) (front5 ++ [sixthItem])).2.getLast?).map
        (fun e => e.rateWait) = some cfgZero.cooldownPeriod ∧
      (∀ (rs : RateState) (now : ℤ) (r : ℚ), ¬ now < rs.cooldownUntil →
        cfgZero.maxMessagesBeforeCooldown ≤ rs.messageCountInWindow →
        shouldWait cfgZero rs now r =
          (cfgZero.cooldownPeriod,
            { rs with cooldownUntil := now + cfgZero.cooldownPeriod,
                      messageCountInWindow := 0 }))) :=
  ⟨rfl, rfl, by decide, by decide, by decide,
    by unfold DistinctItems front5; decide, by decide,
    cooldown_trigger cfgZero 0 front5 sixthItem rfl rfl (by decide) (by decide)
      (by decide) (by unfold DistinctItems front5; decide) (by decide)⟩

end WhatsApp
